import Mathlib

/-!
Shallow embedding of the marketplace repository's three source files:

* the catalog search route (`GET` in `src/unnamed/part_000`): dynamic
  filter-clause construction over a Prisma `findMany` call;
* the preset-pack card's audio preview logic (`togglePlay` /
  `cleanupAudio` in `src/app/components/PresetPackCard.tsx`);
* the cart/wishlist action hook (`useItemActions.ts`).

JavaScript string primitives (`split`, `trim`, `toLowerCase`,
case-insensitive `contains`) are modelled on `List Char` so that every
definition reduces under `decide`.
-/

/-! ### JavaScript string primitives -/

/-- `String.prototype.split(sep)` for a one-character separator, on the
underlying character list.  JS semantics: `"".split(",") = [""]` and a
trailing separator yields a trailing empty segment. -/
def jsSplitAux (sep : Char) : List Char → List Char → List String
  | [], acc => [String.mk acc.reverse]
  | c :: cs, acc =>
    if c = sep then String.mk acc.reverse :: jsSplitAux sep cs []
    else jsSplitAux sep cs (c :: acc)

def jsSplit (sep : Char) (s : String) : List String :=
  jsSplitAux sep s.data []

/-- `Array.prototype.filter(Boolean)` on a list of strings: keeps the
truthy (non-empty) strings. -/
def filterBoolean (l : List String) : List String :=
  l.filter (fun s => s ≠ "")

/-- `searchParams.get(k)?.split(",").filter(Boolean) || []` — the route's
parsing of each list-valued query parameter. -/
def parseListParam : Option String → List String
  | none => []
  | some s => filterBoolean (jsSplit ',' s)

/-- `String.prototype.trim()`: drop whitespace from both ends. -/
def jsTrim (s : String) : String :=
  String.mk (((s.data.dropWhile Char.isWhitespace).reverse.dropWhile
    Char.isWhitespace).reverse)

/-- `String.prototype.toLowerCase()` (character-wise). -/
def lowerS (s : String) : String := String.mk (s.data.map Char.toLower)

def isPrefixL : List Char → List Char → Bool
  | [], _ => true
  | _ :: _, [] => false
  | a :: as, b :: bs => a = b && isPrefixL as bs

def isInfixL (needle : List Char) : List Char → Bool
  | [] => isPrefixL needle []
  | b :: bs => isPrefixL needle (b :: bs) || isInfixL needle bs

/-- Prisma `contains` with `mode: "insensitive"`: case-insensitive
substring test. -/
def ciContains (hay needle : String) : Bool :=
  isInfixL (lowerS needle).data (lowerS hay).data

/-! ### Data model (Prisma records the route returns) -/

structure Vst where
  type : String
deriving DecidableEq, Repr

structure PresetUpload where
  id : String
  title : String
  description : Option String
  genreId : String
  vst : Vst
  presetType : String
  createdAt : Nat
deriving DecidableEq, Repr

/-! ### The filter query builder (`GET` in `src/unnamed/part_000`) -/

/-- One entry pushed onto `whereClause.AND`. -/
inductive Clause where
  | searchOr (term : String)
  | genreIn (genres : List String)
  | vstTypeIn (vstTypes : List String)
  | presetTypeIn (presetTypes : List String)
deriving DecidableEq, Repr

/-- Prisma semantics of a single clause against one record.  `contains`
on a `null` field does not match. -/
def clauseMatches (item : PresetUpload) : Clause → Bool
  | .searchOr t =>
    ciContains item.title t ||
      (match item.description with
       | some d => ciContains d t
       | none => false)
  | .genreIn gs => gs.contains item.genreId
  | .vstTypeIn ts => ts.contains item.vst.type
  | .presetTypeIn ts => ts.contains item.presetType

/-- The four query parameters as they arrive in the URL (`none` =
parameter absent). -/
structure SearchParams where
  searchTerm : Option String
  genres : Option String
  vstTypes : Option String
  presetTypes : Option String
deriving DecidableEq, Repr

/-- The `whereClause.AND` array built by the route: one conditional push
per filter dimension, in source order. -/
def buildClauses (p : SearchParams) : List Clause :=
  let searchTerm := p.searchTerm.getD ""
  let genres := parseListParam p.genres
  let vstTypes := parseListParam p.vstTypes
  let presetTypes := parseListParam p.presetTypes
  (if jsTrim searchTerm ≠ "" then [Clause.searchOr (jsTrim searchTerm)] else []) ++
    (if genres ≠ [] then [Clause.genreIn genres] else []) ++
    (if vstTypes ≠ [] then [Clause.vstTypeIn vstTypes] else []) ++
    (if presetTypes ≠ [] then [Clause.presetTypeIn presetTypes] else [])

/-- The `where` argument passed to `findMany`: `none` models the
`delete whereClause.AND` branch (no `AND` key at all). -/
def whereClause (p : SearchParams) : Option (List Clause) :=
  if buildClauses p = [] then none else some (buildClauses p)

def matchesWhere : Option (List Clause) → PresetUpload → Bool
  | none, _ => true
  | some cs, item => cs.all (clauseMatches item)

/-- Insert keeping a descending-`createdAt` order (stable). -/
def insertDesc (x : PresetUpload) : List PresetUpload → List PresetUpload
  | [] => [x]
  | y :: ys => if x.createdAt ≤ y.createdAt then y :: insertDesc x ys else x :: y :: ys

/-- `orderBy: { createdAt: "desc" }`. -/
def sortByCreatedAtDesc : List PresetUpload → List PresetUpload
  | [] => []
  | x :: xs => insertDesc x (sortByCreatedAtDesc xs)

/-- `prisma.presetUpload.findMany({ where, orderBy })` over a database
modelled as a list of records. -/
def findMany (p : SearchParams) (db : List PresetUpload) : List PresetUpload :=
  sortByCreatedAtDesc (db.filter (matchesWhere (whereClause p)))

inductive GetResponse where
  | ok (items : List PresetUpload)
  | err (status : Nat) (message : String)
deriving DecidableEq, Repr

/-- The whole route handler.  The database access either yields the
records or raises; the `catch` branch logs (`console.error`) and returns
the generic 500 JSON body.  Result: (response, console log). -/
def GET (p : SearchParams) (db : Except String (List PresetUpload)) :
    GetResponse × List String :=
  match db with
  | .ok items => (.ok (findMany p items), [])
  | .error e =>
    (.err 500 "Failed to fetch presets",
      ["Error fetching marketplace presets: " ++ e])

/-! ### Sample records used by concrete witnesses -/

def itemA : PresetUpload :=
  { id := "p1", title := "Alpha", description := some "warm pad",
    genreId := "g1", vst := { type := "SERUM" }, presetType := "LEAD",
    createdAt := 5 }

def itemB : PresetUpload :=
  { id := "p2", title := "Beta", description := none,
    genreId := "g2", vst := { type := "VITAL" }, presetType := "PAD",
    createdAt := 9 }

/-! ### Membership lemmas for the query pipeline -/

theorem mem_insertDesc {x y : PresetUpload} {l : List PresetUpload} :
    y ∈ insertDesc x l ↔ y = x ∨ y ∈ l := by
  induction l with
  | nil => simp [insertDesc]
  | cons z zs ih =>
    by_cases h : x.createdAt ≤ z.createdAt <;>
      (simp [insertDesc, h, ih]; try tauto)

theorem mem_sortByCreatedAtDesc {y : PresetUpload} {l : List PresetUpload} :
    y ∈ sortByCreatedAtDesc l ↔ y ∈ l := by
  induction l with
  | nil => simp [sortByCreatedAtDesc]
  | cons z zs ih => simp [sortByCreatedAtDesc, mem_insertDesc, ih]

theorem mem_findMany {p : SearchParams} {db : List PresetUpload}
    {item : PresetUpload} :
    item ∈ findMany p db ↔
      item ∈ db ∧ matchesWhere (whereClause p) item = true := by
  simp [findMany, mem_sortByCreatedAtDesc, List.mem_filter]

/-! ### C1: no filters ⇒ syntactically unfiltered query -/

/-- C1: when every filter parameter is absent or empty (the search term
trims to the empty string and each comma-separated list parses to `[]`),
no clause is pushed, the `AND` wrapper is deleted (`whereClause p = none`),
and the route returns the full catalog ordered by `createdAt` descending. -/
theorem noFilters_query_unfiltered (p : SearchParams) (db : List PresetUpload)
    (hs : jsTrim (p.searchTerm.getD "") = "")
    (hg : parseListParam p.genres = [])
    (hv : parseListParam p.vstTypes = [])
    (ht : parseListParam p.presetTypes = []) :
    whereClause p = none ∧
      GET p (.ok db) = (.ok (sortByCreatedAtDesc db), []) := by
  have hb : buildClauses p = [] := by
    simp [buildClauses, hs, hg, hv, ht]
  have hw : whereClause p = none := by simp [whereClause, hb]
  refine ⟨hw, ?_⟩
  have hf : List.filter (matchesWhere none) db = db := by
    induction db with
    | nil => rfl
    | cons a as ih => simp [List.filter, matchesWhere, ih]
  simp [GET, findMany, hw, hf]

/-- Witness for C1: all four parameters absent; the response is the whole
two-record catalog, newest first. -/
theorem noFilters_query_unfiltered_witness :
    whereClause ⟨none, none, none, none⟩ = none ∧
      GET ⟨none, none, none, none⟩ (.ok [itemA, itemB]) =
        (.ok [itemB, itemA], []) := by
  have h := noFilters_query_unfiltered ⟨none, none, none, none⟩
    [itemA, itemB] (by decide) (by decide) (by decide) (by decide)
  exact ⟨h.1, h.2.trans (by decide)⟩

/-! ### C6: persistence error ⇒ logged generic 500, no partial results -/

/-- C6: whenever the persistence layer raises, the route catches the
error, logs it (`console.error`), and answers with the generic
`\x7b error: "Failed to fetch presets" \x7d` body at status 500; in
particular no `ok` payload (hence no partial result set) is returned. -/
theorem dbError_returns_500 (p : SearchParams) (e : String) :
    GET p (.error e) =
      (.err 500 "Failed to fetch presets",
        ["Error fetching marketplace presets: " ++ e]) ∧
      ∀ items, (GET p (.error e)).1 ≠ GetResponse.ok items := by
  refine ⟨rfl, ?_⟩
  intro items h
  simp [GET] at h

/-! ### C7: searchTerm filtering (the clause uses the trimmed term) -/

/-- C7 counterexample: `searchTerm = " "` is non-empty, yet `itemB`
(title `"Beta"`, no description) is returned although neither its title
nor its (absent) description contains `" "`: the route filters with the
*trimmed* term, and a whitespace-only term yields no clause at all. -/
theorem searchTerm_substring_counterexample :
    ((⟨some " ", none, none, none⟩ : SearchParams).searchTerm.getD "" ≠ "") ∧
      itemB ∈ findMany ⟨some " ", none, none, none⟩ [itemB] ∧
      ciContains itemB.title
        ((⟨some " ", none, none, none⟩ : SearchParams).searchTerm.getD "") = false ∧
      itemB.description = none := by
  decide

/-- C7 (amended): for every search term whose *trimmed* value is
non-empty, every item returned by the route contains the trimmed term as
a case-insensitive substring of its title or of its description. -/
theorem searchTerm_trimmed_substring (p : SearchParams)
    (db : List PresetUpload) (item : PresetUpload)
    (hs : jsTrim (p.searchTerm.getD "") ≠ "")
    (hmem : item ∈ findMany p db) :
    ciContains item.title (jsTrim (p.searchTerm.getD "")) = true ∨
      ∃ d, item.description = some d ∧
        ciContains d (jsTrim (p.searchTerm.getD "")) = true := by
  have hmemc : Clause.searchOr (jsTrim (p.searchTerm.getD "")) ∈ buildClauses p := by
    simp [buildClauses, hs]
  have hne : buildClauses p ≠ [] := fun h0 => by simp [h0] at hmemc
  have hw : whereClause p = some (buildClauses p) := by simp [whereClause, hne]
  obtain ⟨-, hmw⟩ := mem_findMany.mp hmem
  rw [hw] at hmw
  simp only [matchesWhere] at hmw
  have hcl := List.all_eq_true.mp hmw _ hmemc
  cases hdesc : item.description with
  | none =>
    left
    simpa [clauseMatches, hdesc] using hcl
  | some d =>
    have h2 : ciContains item.title (jsTrim (p.searchTerm.getD "")) = true ∨
        ciContains d (jsTrim (p.searchTerm.getD "")) = true := by
      simpa [clauseMatches, hdesc] using hcl
    rcases h2 with h | h
    · exact Or.inl h
    · exact Or.inr ⟨d, rfl, h⟩

/-- Witness for the amended C7 at `searchTerm = " alpha "`, which trims
to `"alpha"` and matches `itemA`'s title `"Alpha"` case-insensitively. -/
theorem searchTerm_trimmed_substring_witness :
    ciContains itemA.title
        (jsTrim ((⟨some " alpha ", none, none, none⟩ : SearchParams).searchTerm.getD "")) = true ∨
      ∃ d, itemA.description = some d ∧
        ciContains d
          (jsTrim ((⟨some " alpha ", none, none, none⟩ : SearchParams).searchTerm.getD "")) = true :=
  searchTerm_trimmed_substring ⟨some " alpha ", none, none, none⟩
    [itemA, itemB] itemA (by decide) (by decide)

/-! ### C8: genre filtering -/

/-- C8: whenever the `genres` parameter parses to a non-empty list,
every item returned by the route has its `genreId` in that list. -/
theorem genres_filter_membership (p : SearchParams)
    (db : List PresetUpload) (item : PresetUpload)
    (hg : parseListParam p.genres ≠ [])
    (hmem : item ∈ findMany p db) :
    item.genreId ∈ parseListParam p.genres := by
  have hmemc : Clause.genreIn (parseListParam p.genres) ∈ buildClauses p := by
    simp [buildClauses, hg]
  have hne : buildClauses p ≠ [] := fun h0 => by simp [h0] at hmemc
  have hw : whereClause p = some (buildClauses p) := by simp [whereClause, hne]
  obtain ⟨-, hmw⟩ := mem_findMany.mp hmem
  rw [hw] at hmw
  simp only [matchesWhere] at hmw
  have hcl := List.all_eq_true.mp hmw _ hmemc
  simpa [clauseMatches] using hcl

/-- Witness for C8 with `genres = "g1,g2"` and the returned `itemA`. -/
theorem genres_filter_membership_witness :
    itemA.genreId ∈ parseListParam
      (⟨none, some "g1,g2", none, none⟩ : SearchParams).genres :=
  genres_filter_membership ⟨none, some "g1,g2", none, none⟩
    [itemA, itemB] itemA (by decide) (by decide)

/-! ### C10: empty comma segments are discarded -/

theorem jsSplitAux_all_commas (cs : List Char) (h : ∀ c ∈ cs, c = ',') :
    ∀ x ∈ jsSplitAux ',' cs [], x = String.mk [] := by
  induction cs with
  | nil =>
    intro x hx
    simpa [jsSplitAux] using hx
  | cons c cs ih =>
    intro x hx
    have hc : c = ',' := h c (by simp)
    subst hc
    simp [jsSplitAux] at hx
    rcases hx with hx | hx
    · simpa using hx
    · exact ih (fun d hd => h d (by simp [hd])) x hx

theorem filterBoolean_all_empty (l : List String)
    (h : ∀ x ∈ l, x = String.mk []) : filterBoolean l = [] := by
  induction l with
  | nil => rfl
  | cons a as ih =>
    have ha : a = String.mk [] := h a (by simp)
    subst ha
    simp [filterBoolean, List.filter]
    have := ih (fun x hx => h x (by simp [hx]))
    simpa [filterBoolean] using this

/-- C10: the route's list parameters never retain empty segments
(leading/trailing/doubled commas are dropped by `filter(Boolean)`), and a
parameter consisting only of commas parses to `[]`, hence contributes no
filter clause: the built clause list is the same as with the parameter
absent. -/
theorem commaOnly_params_no_clause (t s : String) (p : SearchParams)
    (h : ∀ c ∈ s.data, c = ',') :
    "" ∉ parseListParam (some t) ∧
      parseListParam (some s) = [] ∧
      buildClauses { p with genres := some s, vstTypes := some s,
                            presetTypes := some s } =
        buildClauses { p with genres := none, vstTypes := none,
                              presetTypes := none } := by
  have h2 : parseListParam (some s) = [] := by
    simp only [parseListParam, jsSplit]
    exact filterBoolean_all_empty _ (jsSplitAux_all_commas s.data h)
  refine ⟨?_, h2, ?_⟩
  · intro ht
    simp [parseListParam, filterBoolean, List.mem_filter] at ht
  · simp [buildClauses, h2, show parseListParam none = [] from rfl]

/-- Witness for C10: `genres = vstTypes = presetTypes = ","` build the
same clause list as all three absent, and `",a,,b,"` keeps no empty
segment. -/
theorem commaOnly_params_no_clause_witness :
    "" ∉ parseListParam (some ",a,,b,") ∧
      parseListParam (some ",") = [] ∧
      buildClauses ⟨some "pad", some ",", some ",", some ","⟩ =
        buildClauses ⟨some "pad", none, none, none⟩ :=
  commaOnly_params_no_clause ",a,,b," ","
    ⟨some "pad", some "x", some "y", some "z"⟩ (by decide)

/-!
### Audio preview (`PresetPackCard.tsx`)

React component state (`activePreset`, `audio`, `isPlaying`) plus a
small DOM model: every `new Audio(url)` allocates an element with a
fresh identity, every arrow function passed to `addEventListener` /
`removeEventListener` is a fresh closure with its own identity, and
`removeEventListener` only removes a listener whose function identity
matches.  Inside one `togglePlay` call every read of component state
sees the values captured at call start (React state is constant during
an event handler); `set*` calls take effect in the returned world.
`play()` is modelled as succeeding (the `.catch` recovery path is an
asynchronous rejection handler outside these claims).
-/

structure AudioElem where
  rid : Nat
  url : String
  paused : Bool
  listeners : List (String × Nat)
deriving DecidableEq, Repr

structure CardState where
  activePreset : Option String
  audio : Option Nat
  isPlaying : Bool
deriving DecidableEq, Repr

structure World where
  card : CardState
  elems : List AudioElem
  fresh : Nat
  toasts : List String
deriving DecidableEq, Repr

def updateElem (w : World) (rid : Nat) (f : AudioElem → AudioElem) : World :=
  { w with elems := w.elems.map (fun e => if e.rid = rid then f e else e) }

/-- `audio.pause()`. -/
def pauseElem (w : World) (rid : Nat) : World :=
  updateElem w rid (fun e => { e with paused := true })

/-- `audio.play()` (success path). -/
def playElem (w : World) (rid : Nat) : World :=
  updateElem w rid (fun e => { e with paused := false })

/-- `new Audio(url)`: fresh element, initially paused, no listeners. -/
def newAudio (w : World) (url : String) : Nat × World :=
  (w.fresh,
    { w with
      elems := w.elems ++ [{ rid := w.fresh, url := url, paused := true,
                             listeners := [] }],
      fresh := w.fresh + 1 })

/-- `elem.addEventListener(ev, fn)` where `fn` is a freshly created
closure: a new function identity is attached. -/
def addFreshListener (w : World) (rid : Nat) (ev : String) : Nat × World :=
  (w.fresh,
    updateElem { w with fresh := w.fresh + 1 } rid
      (fun e => { e with listeners := e.listeners ++ [(ev, w.fresh)] }))

/-- `elem.removeEventListener(ev, fn)`: drops exactly the listeners with
this event name *and* this function identity. -/
def removeListener (w : World) (rid : Nat) (ev : String) (fid : Nat) : World :=
  updateElem w rid
    (fun e => { e with listeners := e.listeners.filter (fun q => q ≠ (ev, fid)) })

/-- JS truthiness of a `string | null` value. -/
def strOptTruthy : Option String → Bool
  | none => false
  | some s => s ≠ ""

/-- `cleanupAudio` with the `audio` value captured by the closure:
`pause(); removeEventListener("ended", () => setIsPlaying(false));
setAudio(null); setIsPlaying(false); setActivePreset(null)` — note the
removal passes a *newly created* arrow function. -/
def cleanupAudio (w : World) (audioSnap : Option Nat) : World :=
  match audioSnap with
  | none => w
  | some rid =>
    let w := pauseElem w rid
    let fid := w.fresh
    let w := { w with fresh := w.fresh + 1 }
    let w := removeListener w rid "ended" fid
    { w with card := { activePreset := none, audio := none, isPlaying := false } }

/-- `togglePlay(presetId, soundPreviewUrl)` from the card. -/
def togglePlay (w : World) (presetId : String) (soundPreviewUrl : Option String) :
    World :=
  match soundPreviewUrl with
  | none => { w with toasts := w.toasts ++ ["No preview available for this preset"] }
  | some u =>
    if u = "" then
      { w with toasts := w.toasts ++ ["No preview available for this preset"] }
    else
      let a0 := w.card.audio
      let ap0 := w.card.activePreset
      let ip0 := w.card.isPlaying
      let w := if strOptTruthy ap0 = true ∧ ap0 ≠ some presetId then
        cleanupAudio w a0 else w
      if a0 = none ∨ ap0 ≠ some presetId then
        let r := newAudio w u
        let rid := r.1
        let w := r.2
        let w := (addFreshListener w rid "ended").2
        let w := (addFreshListener w rid "error").2
        let w := { w with card := { w.card with audio := some rid } }
        let w := { w with card := { w.card with activePreset := some presetId } }
        let w := playElem w rid
        { w with card := { w.card with isPlaying := true } }
      else
        match a0 with
        | some rid =>
          if ip0 then
            let w := pauseElem w rid
            { w with card := { w.card with isPlaying := false } }
          else
            let w := playElem w rid
            { w with card := { w.card with isPlaying := true } }
        | none => w

/-- Mounted card with nothing playing. -/
def w0 : World := { card := { activePreset := none, audio := none, isPlaying := false },
                    elems := [], fresh := 0, toasts := [] }

/-- Preset `B` previewing: element 0 holds the handle, with its `ended`
(identity 1) and `error` (identity 2) listeners attached. -/
def wPlayingB : World := togglePlay w0 "B" (some "uB")

/-- Then the user previews preset `A` while `B` is still active. -/
def wSwitchedToA : World := togglePlay wPlayingB "A" (some "uA")

/-! ### C2: switching presets must fully tear down the old resource -/

/-- C2: requesting preset `A` while `B` is active does pause `B`'s
element and release its handle before `A`'s element is created and
played — but the teardown does **not** detach `B`'s listeners:
`cleanupAudio` passes a freshly created arrow function to
`removeEventListener("ended", ...)`, which matches no registered
listener, and never touches the `"error"` listener.  Element 0 (`B`'s)
therefore still carries both listeners after the switch, contradicting
the claimed "detach its listeners" step. -/
theorem switch_leaves_old_listeners_attached :
    (wSwitchedToA.elems.find? (fun e => e.rid = 0)).map
        (fun e => (e.paused, e.listeners)) =
      some (true, [("ended", 1), ("error", 2)]) ∧
    wSwitchedToA.card =
      { activePreset := some "A", audio := some 4, isPlaying := true } ∧
    (wPlayingB.elems.find? (fun e => e.rid = 0)).map (fun e => e.listeners) =
      some [("ended", 1), ("error", 2)] := by
  decide

/-! ### C9: same-item toggle pauses and resumes without reallocation -/

theorem length_updateElem (w : World) (rid : Nat) (f : AudioElem → AudioElem) :
    (updateElem w rid f).elems.length = w.elems.length := by
  simp [updateElem]

theorem togglePlay_pause_eq (w : World) (pid u : String) (rid : Nat)
    (hu : u ≠ "") (ha : w.card.audio = some rid)
    (hap : w.card.activePreset = some pid) (hip : w.card.isPlaying = true) :
    togglePlay w pid (some u) =
      { pauseElem w rid with card := { w.card with isPlaying := false } } := by
  simp [togglePlay, hu, ha, hap, hip, pauseElem, updateElem]

theorem togglePlay_resume_eq (w : World) (pid u : String) (rid : Nat)
    (hu : u ≠ "") (ha : w.card.audio = some rid)
    (hap : w.card.activePreset = some pid) (hip : w.card.isPlaying = false) :
    togglePlay w pid (some u) =
      { playElem w rid with card := { w.card with isPlaying := true } } := by
  simp [togglePlay, hu, ha, hap, hip, playElem, updateElem]

/-- C9: toggling the item that is currently playing pauses it, and
toggling again resumes it, keeping the very same audio handle
(`card.audio = some rid` throughout) and allocating nothing (the
fresh-identity counter and the element list length are unchanged). -/
theorem toggle_same_item_reuses_resource (w : World) (pid u : String) (rid : Nat)
    (hu : u ≠ "") (ha : w.card.audio = some rid)
    (hap : w.card.activePreset = some pid) (hip : w.card.isPlaying = true) :
    (togglePlay w pid (some u)).card.audio = some rid ∧
    (togglePlay w pid (some u)).card.activePreset = some pid ∧
    (togglePlay w pid (some u)).card.isPlaying = false ∧
    (togglePlay w pid (some u)).fresh = w.fresh ∧
    (togglePlay w pid (some u)).elems.length = w.elems.length ∧
    (togglePlay (togglePlay w pid (some u)) pid (some u)).card.audio = some rid ∧
    (togglePlay (togglePlay w pid (some u)) pid (some u)).card.isPlaying = true ∧
    (togglePlay (togglePlay w pid (some u)) pid (some u)).fresh = w.fresh ∧
    (togglePlay (togglePlay w pid (some u)) pid (some u)).elems.length =
      w.elems.length := by
  have h1 := togglePlay_pause_eq w pid u rid hu ha hap hip
  have hcard : (togglePlay w pid (some u)).card =
      { w.card with isPlaying := false } := by rw [h1]
  have h2 := togglePlay_resume_eq (togglePlay w pid (some u)) pid u rid
    (by simpa [hcard] using hu)
    (by simp [hcard, ha]) (by simp [hcard, hap]) (by simp [hcard])
  refine ⟨by simp [hcard, ha], by simp [hcard, hap], by simp [hcard], ?_, ?_, ?_, ?_, ?_, ?_⟩
  · rw [h1]; simp [pauseElem, updateElem]
  · rw [h1]; simp [pauseElem, length_updateElem]
  · rw [h2]; simp [hcard, ha]
  · rw [h2]
  · rw [h2, h1]; simp [playElem, pauseElem, updateElem]
  · rw [h2, h1]; simp [playElem, pauseElem, length_updateElem]

/-- Witness for C9: from the concrete state in which preset `B` is
playing on element 0. -/
theorem toggle_same_item_reuses_resource_witness :
    (togglePlay wPlayingB "B" (some "uB")).card.audio = some 0 ∧
    (togglePlay wPlayingB "B" (some "uB")).card.activePreset = some "B" ∧
    (togglePlay wPlayingB "B" (some "uB")).card.isPlaying = false ∧
    (togglePlay wPlayingB "B" (some "uB")).fresh = wPlayingB.fresh ∧
    (togglePlay wPlayingB "B" (some "uB")).elems.length = wPlayingB.elems.length ∧
    (togglePlay (togglePlay wPlayingB "B" (some "uB")) "B" (some "uB")).card.audio = some 0 ∧
    (togglePlay (togglePlay wPlayingB "B" (some "uB")) "B" (some "uB")).card.isPlaying = true ∧
    (togglePlay (togglePlay wPlayingB "B" (some "uB")) "B" (some "uB")).fresh = wPlayingB.fresh ∧
    (togglePlay (togglePlay wPlayingB "B" (some "uB")) "B" (some "uB")).elems.length =
      wPlayingB.elems.length :=
  toggle_same_item_reuses_resource wPlayingB "B" "uB" 0
    (by decide) (by decide) (by decide) (by decide)

/-!
### Cart/wishlist action layer (`useItemActions.ts`)

The hook's handlers dispatch into `@/app/store/features/cartSlice` and
hit `/api/cart/...` endpoints; neither the slice nor the server routes
are among the sources, so those collaborators are modelled from the
spec (each such definition says so in its doc comment).  Cart
collections are lists of item identifiers.
-/

/-- `s.charAt(0).toUpperCase() + s.slice(1)`. -/
def capFirst (s : String) : String :=
  match s.data with
  | [] => ""
  | c :: cs => String.mk (c.toUpper :: cs)

/-- Modelled from the spec: the `optimisticAddToCart` reducer of the
missing `cartSlice` — "synchronously apply the presumed end state to
local state before the network call resolves", i.e. insert the item
into the local cart collection. -/
def optimisticAddToCart (localCart : List String) (itemId : String) :
    List String :=
  localCart ++ [itemId]

/-- Modelled from the spec: the `fetchCartItems` thunk of the missing
`cartSlice` — re-fetch authoritative state, replacing the local
collection with the server's. -/
def fetchCartItems (server : List String) : List String := server

/-- One run of `handleAddToCart`: optimistic dispatch, then the
`addToCart` network call (`netResult`), then reconciliation.  On
success the server has applied the add and the local state is re-fetched
from it; on failure the catch block re-fetches the unchanged server
state.  `afterOptimistic` is the local cart right after the optimistic
phase, before the network response resolves. -/
structure AddToCartRun where
  afterOptimistic : List String
  finalLocal : List String
  finalServer : List String
  toasts : List String
deriving DecidableEq, Repr

def handleAddToCart (itemType itemId : String)
    (localCart server : List String) (netResult : Except String Unit) :
    AddToCartRun :=
  let l1 := optimisticAddToCart localCart itemId
  match netResult with
  | .ok _ =>
    let server1 := server ++ [itemId]
    { afterOptimistic := l1, finalLocal := fetchCartItems server1,
      finalServer := server1,
      toasts := [capFirst itemType ++ " added to cart"] }
  | .error e =>
    { afterOptimistic := l1, finalLocal := fetchCartItems server,
      finalServer := server, toasts := [e] }

/-- C3: after `handleAddToCart`'s optimistic phase the local cart
contains the item (whatever the network later does), and when the
network call fails and the authoritative cart did not contain the item,
the reconciliation re-fetch leaves a local cart that no longer contains
it. -/
theorem addToCart_optimistic_then_reverted (itemType itemId : String)
    (localCart server : List String) (e : String)
    (hnot : itemId ∉ server) :
    itemId ∈ (handleAddToCart itemType itemId localCart server (.ok ())).afterOptimistic ∧
    itemId ∈ (handleAddToCart itemType itemId localCart server (.error e)).afterOptimistic ∧
    itemId ∉ (handleAddToCart itemType itemId localCart server (.error e)).finalLocal := by
  refine ⟨?_, ?_, ?_⟩ <;>
    simp [handleAddToCart, optimisticAddToCart, fetchCartItems, hnot]

/-- Witness for C3 with a concrete cart. -/
theorem addToCart_optimistic_then_reverted_witness :
    "p1" ∈ (handleAddToCart "PRESET" "p1" ["x"] ["y"] (.ok ())).afterOptimistic ∧
    "p1" ∈ (handleAddToCart "PRESET" "p1" ["x"] ["y"] (.error "boom")).afterOptimistic ∧
    "p1" ∉ (handleAddToCart "PRESET" "p1" ["x"] ["y"] (.error "boom")).finalLocal :=
  addToCart_optimistic_then_reverted "PRESET" "p1" ["x"] ["y"] "boom" (by decide)

/-! ### C4: move invalidates each cache once; single atomic server call -/

inductive CartType where
  | CART
  | WISHLIST
deriving DecidableEq, Repr

structure ServerCarts where
  cart : List String
  wishlist : List String
deriving DecidableEq, Repr

/-- Modelled from the spec: the server side of the single
`PUT /api/cart/:from` call — "'move' is a single logical operation, not
independent add+remove": one atomic transition removing the item from
the source collection and adding it to the cart. -/
def serverMoveToCart (s : ServerCarts) (itemId : String) (fromCol : CartType) :
    ServerCarts :=
  match fromCol with
  | .WISHLIST => { cart := s.cart ++ [itemId],
                   wishlist := s.wishlist.filter (fun x => x ≠ itemId) }
  | .CART => s

/-- One run of `moveItemMutation.mutate(from)`: the mutationFn issues
exactly one fetch; on success `onSuccess` invalidates the `cart` query
key and then the `wishlist` query key and toasts.  `serverTrace` lists
the authoritative state before and (on success) after the single call. -/
structure MoveRun where
  serverCalls : Nat
  invalidations : List String
  serverTrace : List ServerCarts
  toasts : List String
deriving DecidableEq, Repr

def moveItemMutation (itemType itemId : String) (fromCol : CartType)
    (s0 : ServerCarts) (netResult : Except String Unit) : MoveRun :=
  match netResult with
  | .ok _ =>
    { serverCalls := 1,
      invalidations := ["cart", "wishlist"],
      serverTrace := [s0, serverMoveToCart s0 itemId fromCol],
      toasts := [capFirst itemType ++ " moved to cart"] }
  | .error e =>
    { serverCalls := 1, invalidations := [], serverTrace := [s0],
      toasts := [e] }

/-- C4: a successful WISHLIST→CART move issues exactly one server call,
invalidates the cart cache exactly once and the wishlist cache exactly
once, and at every point of the server trace the item is present in the
cart or in the wishlist. -/
theorem move_single_call_invalidates_once_each (itemType itemId : String)
    (s0 : ServerCarts) (hmem : itemId ∈ s0.wishlist) :
    (moveItemMutation itemType itemId .WISHLIST s0 (.ok ())).serverCalls = 1 ∧
    (moveItemMutation itemType itemId .WISHLIST s0 (.ok ())).invalidations.count "cart" = 1 ∧
    (moveItemMutation itemType itemId .WISHLIST s0 (.ok ())).invalidations.count "wishlist" = 1 ∧
    (moveItemMutation itemType itemId .WISHLIST s0 (.ok ())).serverTrace.all
      (fun s => s.cart.contains itemId || s.wishlist.contains itemId) = true := by
  have hinv : (moveItemMutation itemType itemId .WISHLIST s0
      (.ok ())).invalidations = ["cart", "wishlist"] := rfl
  refine ⟨rfl, ?_, ?_, ?_⟩
  · rw [hinv]
    decide
  · rw [hinv]
    decide
  · simp [moveItemMutation, serverMoveToCart, List.all]
    exact Or.inr hmem

/-- Witness for C4 with a concrete pair of collections. -/
theorem move_single_call_invalidates_once_each_witness :
    (moveItemMutation "PRESET" "p9" .WISHLIST ⟨["c1"], ["w1", "p9"]⟩ (.ok ())).serverCalls = 1 ∧
    (moveItemMutation "PRESET" "p9" .WISHLIST ⟨["c1"], ["w1", "p9"]⟩ (.ok ())).invalidations.count "cart" = 1 ∧
    (moveItemMutation "PRESET" "p9" .WISHLIST ⟨["c1"], ["w1", "p9"]⟩ (.ok ())).invalidations.count "wishlist" = 1 ∧
    (moveItemMutation "PRESET" "p9" .WISHLIST ⟨["c1"], ["w1", "p9"]⟩ (.ok ())).serverTrace.all
      (fun s => s.cart.contains "p9" || s.wishlist.contains "p9") = true :=
  move_single_call_invalidates_once_each "PRESET" "p9" ⟨["c1"], ["w1", "p9"]⟩
    (by decide)

/-! ### C5: delete and the navigation that follows -/

/-- Modelled from the spec: the `ContentViewMode` enum of the missing
`@/types/enums` — the "uploaded/owned" view plus the other browsing
view. -/
inductive ContentViewMode where
  | UPLOADED
  | DOWNLOADED
deriving DecidableEq, Repr

structure DeleteRun where
  invalidations : List String
  navigations : List String
  toasts : List String
deriving DecidableEq, Repr

/-- One run of `handleDelete`: `deleteItemMutation.mutate()` (react-query
`mutate` returns `void`, so the `await` does not wait for the mutation
and errors never throw here — they only reach `onError`), followed
unconditionally by the handler's own redirect logic.  The handler's
pushes run before the mutation settles, so they come first in
`navigations`; `onSuccess` invalidates the item-type cache, toasts, and
pushes again when the content view is UPLOADED, while `onError` only
toasts. -/
def handleDelete (itemType : String) (contentViewMode : Option ContentViewMode)
    (requestViewMode : Option String) (netResult : Except String Unit) :
    DeleteRun :=
  let handlerNav : List String :=
    if itemType = "REQUEST" ∧ strOptTruthy requestViewMode = true then
      ["/requests?view=" ++ requestViewMode.getD ""]
    else if contentViewMode ≠ none then
      ["/dashboard/" ++ itemType ++ "s"]
    else []
  match netResult with
  | .ok _ =>
    { invalidations := [itemType ++ "s"],
      navigations := handlerNav ++
        (if contentViewMode = some .UPLOADED then
          ["/dashboard/" ++ itemType ++ "s"] else []),
      toasts := [capFirst itemType ++ " deleted successfully"] }
  | .error e =>
    { invalidations := [], navigations := handlerNav, toasts := [e] }

/-- C5 counterexample: a failed delete of a preset while the content
view is UPLOADED still navigates to the dashboard listing — the claim's
"if the delete fails, no navigation occurs" is false, because
`handleDelete` pushes whenever a content view mode is set, regardless of
the mutation's outcome. -/
theorem delete_navigates_on_failure :
    (handleDelete "PRESET" (some .UPLOADED) none (.error "boom")).navigations =
      ["/dashboard/PRESETs"] := by
  decide

/-- C5 (amended): on success with the UPLOADED content view the handler
does navigate to the owner dashboard listing for the item type; but on
failure, navigation still happens whenever a content view mode is set
(the handler's unconditional redirect) — only with no content view mode
(and no request-view redirect for requests) does a failed delete
navigate nowhere. -/
theorem delete_navigation (itemType : String) (cvm : Option ContentViewMode)
    (rvm : Option String) (e : String) :
    (cvm = some .UPLOADED →
      ("/dashboard/" ++ itemType ++ "s") ∈
        (handleDelete itemType cvm rvm (.ok ())).navigations) ∧
    (cvm = none → ¬(itemType = "REQUEST" ∧ strOptTruthy rvm = true) →
      (handleDelete itemType cvm rvm (.error e)).navigations = []) ∧
    (cvm ≠ none → ¬(itemType = "REQUEST" ∧ strOptTruthy rvm = true) →
      (handleDelete itemType cvm rvm (.error e)).navigations =
        ["/dashboard/" ++ itemType ++ "s"]) := by
  refine ⟨?_, ?_, ?_⟩
  · intro hc
    subst hc
    simp [handleDelete]
  · intro hc hr
    subst hc
    simp [handleDelete, hr]
  · intro hc hr
    simp [handleDelete, hr, hc]

/-- Witness for the amended C5: a successful uploaded-view delete
navigates to the dashboard; a failed delete with no view mode set does
not navigate; a failed delete with a view mode set does. -/
theorem delete_navigation_witness :
    ("/dashboard/" ++ "PRESET" ++ "s") ∈
      (handleDelete "PRESET" (some .UPLOADED) none (.ok ())).navigations ∧
    (handleDelete "PRESET" none none (.error "boom")).navigations = [] ∧
    (handleDelete "PACK" (some .UPLOADED) none (.error "boom")).navigations =
      ["/dashboard/" ++ "PACK" ++ "s"] :=
  ⟨(delete_navigation "PRESET" (some .UPLOADED) none "x").1 rfl,
   (delete_navigation "PRESET" none none "boom").2.1 rfl (by decide),
   (delete_navigation "PACK" (some .UPLOADED) none "boom").2.2 (by decide) (by decide)⟩
